import Mathlib

/-!
Shallow embedding of `rocketbar` (`src/main.rs`), a status-bar data producer:
a Volume Watcher thread feeds a shared volume cell and a wake flag, and a
Scheduler loop builds JSON snapshots.  Pure string/number helpers are embedded
as Lean functions; the watcher/scheduler interaction is embedded as an
explicit interleaving transition system.  Rust `u32` is modelled as `Nat`
(no arithmetic that could overflow occurs in the embedded code paths;
where the `u32` bound matters, `parse::<u32>` failure is modelled
explicitly); Rust `f32` in `readable_bytes` is modelled as exact `ℚ`
(division by 1024 is exact in `f32`; the properties proved below are
insensitive to the remaining representation error and to `{:.2}` tie-breaking).
-/

namespace Rocketbar

/-! ### String helpers modelling Rust std behaviour -/

/-- `hasPrefixL pat s`: `pat` is a prefix of the char list `s`. -/
def hasPrefixL : List Char → List Char → Bool
  | [], _ => true
  | _ :: _, [] => false
  | p :: ps, c :: cs => p == c && hasPrefixL ps cs

/-- `containsSub s pat`: `pat` occurs as a contiguous sublist of `s`
(Rust `str::contains` with a literal pattern). -/
def containsSub : List Char → List Char → Bool
  | [], pat => pat.isEmpty
  | s@(_ :: cs), pat => hasPrefixL pat s || containsSub cs pat

/-- Rust `String::contains(pat)` for literal string patterns. -/
def strContains (s pat : String) : Bool :=
  containsSub s.toList pat.toList

/-- Rust `str::split_whitespace`: maximal runs of non-whitespace characters
(empty pieces never occur).  `cur` accumulates the current token reversed. -/
def splitWsAux : List Char → List Char → List String
  | [], cur => if cur.isEmpty then [] else [String.mk cur.reverse]
  | c :: cs, cur =>
    if c.isWhitespace then
      (if cur.isEmpty then [] else [String.mk cur.reverse]) ++ splitWsAux cs []
    else splitWsAux cs (c :: cur)

/-- Rust `str::split_whitespace` on a string. -/
def splitWs (s : String) : List String := splitWsAux s.toList []

/-- Close a `'\n'`-terminated line: a `"\r\n"` terminator also drops the
`'\r'` (`cur` holds the line reversed, so the `'\r'` is at its head). -/
def finishLine (cur : List Char) : String :=
  String.mk ((match cur with
    | '\r' :: rest => rest
    | other => other).reverse)

/-- Rust `str::lines`: split at `'\n'` (recognising `"\r\n"`), with an
optional final line ending — a trailing piece is kept only if nonempty, and
a final piece not terminated by `'\n'` keeps a trailing `'\r'`. -/
def linesAux : List Char → List Char → List String
  | [], cur => if cur.isEmpty then [] else [String.mk cur.reverse]
  | c :: cs, cur =>
    if c = '\n' then finishLine cur :: linesAux cs []
    else linesAux cs (c :: cur)

/-- Rust `str::lines` on a string. -/
def rustLines (s : String) : List String := linesAux s.toList []

/-- Rust `str::starts_with` with a literal pattern. -/
def rustStartsWith (s pre : String) : Bool := hasPrefixL pre.toList s.toList

/-- Rust `str::trim`: strip leading and trailing whitespace. -/
def rustTrim (s : String) : String :=
  String.mk (((s.toList.dropWhile Char.isWhitespace).reverse.dropWhile
    Char.isWhitespace).reverse)

/-! ### `format_volume` (src/main.rs lines 87-95) -/

/-- The muted-speaker icon `U+EEE8` used for volume 0. -/
def mutedIcon : String := String.mk [Char.ofNat 0xEEE8]

/-- The speaker icon `U+F028` used for any non-zero volume. -/
def volIcon : String := String.mk [Char.ofNat 0xF028]

/-- `format_volume`: icon chosen by matching the volume against 0,
then `format!("{}  {}", icon, vol)`. -/
def format_volume (vol : ℕ) : String :=
  let icon := match vol with
    | 0 => mutedIcon
    | _ => volIcon
  icon ++ "  " ++ toString vol

/-! ### `readable_bytes` (src/main.rs lines 61-70), `f32` modelled as `ℚ` -/

/-- Round to nearest integer (`⌊q + 1/2⌋`); models the rounding performed by
Rust `{:.2}` float formatting (which breaks exact ties to even; no property
below depends on the tie direction). -/
def roundQ (q : ℚ) : ℤ := ⌊q + 1 / 2⌋

/-- Render a nonnegative centi-value `c` as the decimal `c / 100` with
exactly two digits after the point, as `{:.2}` does. -/
def centiRender (c : ℕ) : String :=
  toString (c / 100) ++ "." ++
    (if c % 100 < 10 then "0" ++ toString (c % 100) else toString (c % 100))

/-- Rust `format!("{num:.2}")` on a nonnegative value. -/
def fmt2 (q : ℚ) : String := centiRender (roundQ (q * 100)).toNat

/-- The unit suffixes iterated by `readable_bytes`. -/
def units : List String := ["B", "KB", "MB", "GB", "TB", "PB"]

/-- The loop body of `readable_bytes`: for each unit, if `num < 1024` return
`format!("{num:.2}{unit}")`, else divide `num` by 1024 and continue; when the
units are exhausted return `"ERROR"`. -/
def readableGo : List String → ℚ → String
  | [], _ => "ERROR"
  | u :: us, num => if num < 1024 then fmt2 num ++ u else readableGo us (num / 1024)

/-- `readable_bytes` (src/main.rs lines 61-70). -/
def readable_bytes (num : ℚ) : String := readableGo units num

/-! ### `get_volume` (src/main.rs lines 73-84)

The subprocess call is opaque; what is embedded is the text-processing step:
the regex `r"/\s*(\d+)%"` applied to the `pactl` output, whose first capture
is parsed as `u32`.  The regex is embedded directly: a match starts at a
literal `'/'`, skips whitespace greedily, then takes a nonempty greedy digit
run that must be followed by `'%'` (the digit class and `'%'` are disjoint
from the digit run, so no backtracking case is reachable); the leftmost match
wins.  `parse::<u32>` succeeds exactly when the digit run's value fits in
`u32`. -/

/-- Try to match `\s*(\d+)%` directly after a `'/'`; returns the digit run. -/
def volMatchAfterSlash (cs : List Char) : Option (List Char) :=
  let rest := cs.dropWhile Char.isWhitespace
  let ds := rest.takeWhile Char.isDigit
  if ds ≠ [] ∧ (rest.drop ds.length).head? = some '%' then some ds else none

/-- First (leftmost) match of `/\s*(\d+)%`: the captured digit run. -/
def findVolMatch : List Char → Option (List Char)
  | [] => none
  | c :: cs =>
    match (if c = '/' then volMatchAfterSlash cs else none) with
    | some ds => some ds
    | none => findVolMatch cs

/-- Numeric value of a digit run. -/
def digitsVal (ds : List Char) : ℕ :=
  ds.foldl (fun acc c => acc * 10 + (c.toNat - '0'.toNat)) 0

/-- The text-processing part of `get_volume`: regex capture then
`parse::<u32>().ok()` (failure on overflow makes the whole result `none`,
with no fallback to later matches). -/
def get_volume_parse (stdout : String) : Option ℕ :=
  (findVolMatch stdout.toList).bind fun ds =>
    let v := digitsVal ds
    if v < 2 ^ 32 then some v else none

/-! ### Status blocks and `print_status` (src/main.rs lines 144-349)

Only the non-commented-out blocks of `print_status` are emitted by the
program: volume (unconditional), brightness (only if `get_brightness`
succeeded), clock (unconditional).  All network/storage/temperature/load/
cpu/memory/fan/ip/date pushes are commented out in the source, so they do
not appear in the model.  The environment-dependent inputs (brightness
sensor result, formatted time) are parameters. -/

/-- One renderable segment; the `json!` objects pushed by `print_status`
carry exactly a `full_text` and a `name` key (no active block sets
`color`). -/
structure StatusBlock where
  full_text : String
  name : String
deriving DecidableEq, Repr

/-- The brightness icon `U+F522`. -/
def brightIcon : String := String.mk [Char.ofNat 0xF522]

/-- The clock icon `U+F0954`. -/
def clockIcon : String := String.mk [Char.ofNat 0xF0954]

/-- The volume block: `format_volume(volume)` with name `"volume"`. -/
def volumeBlock (volume : ℕ) : StatusBlock :=
  ⟨format_volume volume, "volume"⟩

/-- The brightness block: `format!("  {}", brightness)` with name
`"brightness"`. -/
def brightnessBlock (b : ℕ) : StatusBlock :=
  ⟨brightIcon ++ "  " ++ toString b, "brightness"⟩

/-- The clock block: `format!("󰥔  {} ", time)` with name `"clock"`. -/
def clockBlock (time : String) : StatusBlock :=
  ⟨clockIcon ++ "  " ++ time ++ " ", "clock"⟩

/-- The ordered block list assembled by `print_status`: volume, then
brightness when `get_brightness` returned `Ok`, then clock.  A sensor
failure (`brightness = none`) only omits its own block; the function is
total, so building never aborts. -/
def print_status_blocks (volume : ℕ) (brightness : Option ℕ) (time : String) :
    List StatusBlock :=
  [volumeBlock volume] ++
    (match brightness with
      | some b => [brightnessBlock b]
      | none => []) ++
    [clockBlock time]

/-! ### Wire format (src/main.rs lines 347-348, 368-371)

`serde_json::to_string` of the `Vec<Value>` built above: a compact JSON
array of objects whose keys are emitted in sorted order
(`"full_text" < "name"`, serde_json's default BTreeMap ordering), strings
escaped per JSON. -/

/-- serde_json's escaping of one character inside a JSON string. -/
def escapeChar (c : Char) : String :=
  if c = '"' then "\\\""
  else if c = '\\' then "\\\\"
  else if c = Char.ofNat 8 then "\\b"
  else if c = Char.ofNat 9 then "\\t"
  else if c = Char.ofNat 10 then "\\n"
  else if c = Char.ofNat 12 then "\\f"
  else if c = Char.ofNat 13 then "\\r"
  else if c.toNat < 32 then
    "\\u00" ++ String.mk [Char.ofNat (if c.toNat / 16 < 10 then '0'.toNat + c.toNat / 16 else 'a'.toNat + c.toNat / 16 - 10),
                          Char.ofNat (if c.toNat % 16 < 10 then '0'.toNat + c.toNat % 16 else 'a'.toNat + c.toNat % 16 - 10)]
  else String.mk [c]

/-- JSON string literal for `s`. -/
def encodeString (s : String) : String :=
  "\"" ++ String.join (s.toList.map escapeChar) ++ "\""

/-- The JSON key `"full_text"` as it appears on the wire. -/
def fullTextKey : String := "\"full_text\""

/-- The JSON key `"name"` as it appears on the wire. -/
def nameKey : String := "\"name\""

/-- JSON object for one status block (keys in serde_json's sorted order). -/
def encodeBlock (b : StatusBlock) : String :=
  "\x7b" ++ fullTextKey ++ ":" ++ encodeString b.full_text ++
    "," ++ nameKey ++ ":" ++ encodeString b.name ++ "\x7d"

/-- JSON array for one snapshot. -/
def encodeBlocks (bs : List StatusBlock) : String :=
  "[" ++ String.intercalate "," (bs.map encodeBlock) ++ "]"

/-- One emitted snapshot line: `println!("{},", serde_json::to_string(..))`
(src/main.rs line 348) — the serialized array plus a literal trailing
comma. -/
def snapshot_line (bs : List StatusBlock) : String := encodeBlocks bs ++ ","

/-- The first output line, `println!(r#"{{ "version": 1 }}"#)`
(src/main.rs line 369): note the spaces inside the braces. -/
def version_line : String := "\x7b \"version\": 1 \x7d"

/-- The whole output stream as a list of lines (src/main.rs lines 368-371
then one line per snapshot): version object, `[`, then snapshot lines. -/
def output_lines (snaps : List (List StatusBlock)) : List String :=
  version_line :: "[" :: snaps.map snapshot_line

/-! ### `get_country_code` (src/main.rs lines 351-366) -/

/-- Rust `char::to_ascii_uppercase` composed over `.take(2).collect()`. -/
def upper2 (s : String) : String :=
  String.mk ((s.toList.map Char.toUpper).take 2)

/-- The line loop of `get_country_code`: the first line that starts with
`Hostname:` *and* has a second whitespace token returns early; a
`Hostname:`-prefixed line without a second token falls through and the scan
continues; exhausting the lines yields the error. -/
def ccLoop : List String → Except String String
  | [] => Except.error "Hostname Line not found"
  | l :: ls =>
    if rustStartsWith l ("Hostname:") then
      match (splitWs l)[1]? with
      | some hostname => Except.ok (upper2 hostname)
      | none => ccLoop ls
    else ccLoop ls

/-- The text-processing part of `get_country_code` applied to the
`nordvpn status` stdout. -/
def get_country_code (stdout : String) : Except String String :=
  ccLoop (rustLines stdout)

/-! ### `get_ip_address` (src/main.rs lines 127-141)

The per-line processing can `unwrap()` a `None` (a line containing
`"inet "`, not containing `"127.0.0.1"`, with fewer than two whitespace
tokens); that panic is modelled as the `none` result. -/

/-- Line loop of `get_ip_address`; `none` models a panic of one of the two
`unwrap()` calls (`last()` resp. `nth(1)` on the whitespace split). -/
def ipGo : List String → Option (List String)
  | [] => some []
  | x :: xs =>
    if strContains x ("inet ") && !(strContains x ("127.0.0.1")) then
      match (splitWs x).getLast?, (splitWs x)[1]? with
      | some lst, some snd => (ipGo xs).map (fun r => (lst ++ " " ++ snd) :: r)
      | _, _ => none
    else ipGo xs

/-- The text-processing part of `get_ip_address`: the stdout is trimmed as a
whole, then processed line by line; `none` models a panic. -/
def get_ip_address (stdout : String) : Option (List String) :=
  ipGo (rustLines (rustTrim stdout))

/-! ### The Volume Watcher loop body (src/main.rs lines 391-406) -/

/-- The sink-change marker tested by the watcher. -/
def sinkMarker : String := "Event 'change' on sink"

/-- The two shared values: the volume cell (`Arc<Mutex<u32>>`) and the wake
flag (the `Mutex<bool>` half of the condvar pair). -/
structure WatcherState where
  vol : ℕ
  notified : Bool
deriving DecidableEq, Repr

/-- One iteration of the watcher's line loop, given the line read from
`pactl subscribe` and the value `get_volume()` would return (`query`).
Returns the new shared state and whether `WakeSignal` was raised
(`*notified = true` plus `notify_one`) in this iteration. -/
def watcher_step (st : WatcherState) (line : String) (query : Option ℕ) :
    WatcherState × Bool :=
  if strContains line sinkMarker then
    match query with
    | some newVol =>
      if st.vol ≠ newVol then (⟨newVol, true⟩, true) else (st, false)
    | none => (st, false)
  else (st, false)

/-- Folding the watcher over a list of (line, query-result) events,
counting raised wake signals. -/
def watcher_run (st : WatcherState) : List (String × Option ℕ) → WatcherState × ℕ
  | [] => (st, 0)
  | (l, q) :: rest =>
    let s := watcher_step st l q
    let r := watcher_run s.1 rest
    (r.1, (if s.2 then 1 else 0) + r.2)

/-! ### Interleaved semantics of the critical sections
(src/main.rs lines 372-373, 394-402, 420-427)

The program has two mutexes: `volume : Arc<Mutex<u32>>` and the
`(Mutex<bool>, Condvar)` pair.  The watcher's handling of one sink-change
event with successfully queried value `nv` is the block

```
let mut vol_lock = volume_clone.lock().unwrap();      -- w0 acquire
if *vol_lock != new_vol {                             -- w1 branch
    *vol_lock = new_vol;                              -- w2 write
    let mut notified = lock.lock().unwrap();          -- w3 acquire
    *notified = true;                                 -- w4 set flag
    cvar.notify_one();                                -- w5 notify
}                                                     -- w6 release pair
                                                      -- w7 release vol
```

(the pair guard drops at the end of the inner block, the volume guard at the
end of the outer one; on the skip branch neither pair operation happens).
One scheduler iteration is

```
let notified = lock.lock().unwrap();                  -- s0 acquire pair
let _ = cvar.wait_timeout(notified, 1s).unwrap();     -- s1 start waiting
                                                      -- s2 wake (signal or
                                                      --    timeout), re-acquire
                                                      -- s3 guard drops
let vol = *volume.lock().unwrap();                    -- s4 acquire, s5 read,
                                                      -- s6 release
print_status(...)                                     -- s7 (uses schedVol)
```

Each labelled step is atomic; mutex acquisition blocks while the owner field
is set.  The model lets a pending `notify_one` wake a wait that started
later (real condvars drop such notifications); this only adds behaviours,
so the invariants proved below also cover the real executions.  Nothing in
either thread ever resets `notified` to `false` — the scheduler binds the
guard and discards it unchanged. -/

/-- Thread identifiers. -/
inductive Tid where
  | watcher
  | sched
deriving DecidableEq, Repr

/-- A state of the two-thread system handling one sink-change event
(new queried value `nv`) concurrently with one scheduler iteration. -/
structure CState where
  /-- contents of `SharedVolumeCell` -/
  vol : ℕ
  /-- the `bool` under the pair mutex (`WakeSignal`'s dirty flag) -/
  notified : Bool
  /-- a `notify_one` has been issued and not yet woken the waiter -/
  notifyPending : Bool
  /-- owner of the volume mutex -/
  volOwner : Option Tid
  /-- owner of the pair mutex -/
  pairOwner : Option Tid
  /-- watcher program counter (0..8, see the listing above) -/
  wpc : ℕ
  /-- scheduler program counter (0..7) -/
  spc : ℕ
  /-- the scheduler's snapshot read of the cell -/
  schedVol : Option ℕ
  /-- the scheduler's wait was ended by the signal, not the timeout -/
  wokenBySignal : Bool
deriving DecidableEq, Repr

/-- Initial state: cell holds `v0`, flag clear, both mutexes free, both
threads at their first instruction. -/
def initC (v0 : ℕ) : CState :=
  ⟨v0, false, false, none, none, 0, 0, none, false⟩

/-- One atomic step of either thread; `nv` is the value the watcher's
`get_volume()` returned for this event. -/
inductive CStep (nv : ℕ) : CState → CState → Prop where
  /-- w0: `volume_clone.lock()` -/
  | wLockVol (s : CState) (h : s.wpc = 0) (hf : s.volOwner = none) :
      CStep nv s { s with volOwner := some Tid.watcher, wpc := 1 }
  /-- w1, taken branch: `*vol_lock != new_vol` holds -/
  | wBranchNe (s : CState) (h : s.wpc = 1) (hne : s.vol ≠ nv) :
      CStep nv s { s with wpc := 2 }
  /-- w1, skip branch: the queried value equals the stored one -/
  | wBranchEq (s : CState) (h : s.wpc = 1) (heq : s.vol = nv) :
      CStep nv s { s with wpc := 7 }
  /-- w2: `*vol_lock = new_vol` -/
  | wWrite (s : CState) (h : s.wpc = 2) :
      CStep nv s { s with vol := nv, wpc := 3 }
  /-- w3: `lock.lock()` -/
  | wLockPair (s : CState) (h : s.wpc = 3) (hf : s.pairOwner = none) :
      CStep nv s { s with pairOwner := some Tid.watcher, wpc := 4 }
  /-- w4: `*notified = true` -/
  | wSetFlag (s : CState) (h : s.wpc = 4) :
      CStep nv s { s with notified := true, wpc := 5 }
  /-- w5: `cvar.notify_one()` -/
  | wNotify (s : CState) (h : s.wpc = 5) :
      CStep nv s { s with notifyPending := true, wpc := 6 }
  /-- w6: inner block ends, pair guard drops -/
  | wUnlockPair (s : CState) (h : s.wpc = 6) :
      CStep nv s { s with pairOwner := none, wpc := 7 }
  /-- w7: outer block ends, volume guard drops -/
  | wUnlockVol (s : CState) (h : s.wpc = 7) :
      CStep nv s { s with volOwner := none, wpc := 8 }
  /-- s0: `lock.lock()` -/
  | sLockPair (s : CState) (h : s.spc = 0) (hf : s.pairOwner = none) :
      CStep nv s { s with pairOwner := some Tid.sched, spc := 1 }
  /-- s1: `wait_timeout` atomically releases the pair mutex and waits -/
  | sStartWait (s : CState) (h : s.spc = 1) :
      CStep nv s { s with pairOwner := none, spc := 2 }
  /-- s2, signal case: the notification wakes the wait; re-acquire -/
  | sWakeSignal (s : CState) (h : s.spc = 2) (hn : s.notifyPending = true)
      (hf : s.pairOwner = none) :
      CStep nv s { s with notifyPending := false, pairOwner := some Tid.sched,
                          wokenBySignal := true, spc := 3 }
  /-- s2, timeout case: the 1-second timeout fires; re-acquire -/
  | sWakeTimeout (s : CState) (h : s.spc = 2) (hf : s.pairOwner = none) :
      CStep nv s { s with pairOwner := some Tid.sched, spc := 3 }
  /-- s3: the guard returned by `wait_timeout` is discarded (the flag is
  neither read nor written) and drops -/
  | sUnlockPair (s : CState) (h : s.spc = 3) :
      CStep nv s { s with pairOwner := none, spc := 4 }
  /-- s4: `volume.lock()` -/
  | sLockVol (s : CState) (h : s.spc = 4) (hf : s.volOwner = none) :
      CStep nv s { s with volOwner := some Tid.sched, spc := 5 }
  /-- s5: the snapshot read `let vol = *volume.lock()` -/
  | sRead (s : CState) (h : s.spc = 5) :
      CStep nv s { s with schedVol := some s.vol, spc := 6 }
  /-- s6: the volume guard drops; the iteration then prints from `schedVol` -/
  | sUnlockVol (s : CState) (h : s.spc = 6) :
      CStep nv s { s with volOwner := none, spc := 7 }

/-- Reachability from the initial state. -/
def CReach (v0 nv : ℕ) (s : CState) : Prop :=
  Relation.ReflTransGen (CStep nv) (initC v0) s

/-- The inductive invariant: the cell is published before the flag, the flag
before the notification, so a signal-caused wakeup can only read the new
value — and the flag, once set, is never cleared. -/
def CInv (nv : ℕ) (s : CState) : Prop :=
  (3 ≤ s.wpc → s.vol = nv) ∧
  (s.notified = true → s.vol = nv ∧ 5 ≤ s.wpc) ∧
  (s.notifyPending = true → s.vol = nv ∧ s.notified = true ∧ 6 ≤ s.wpc) ∧
  (s.wokenBySignal = true → s.vol = nv ∧ s.notified = true) ∧
  (s.wokenBySignal = true → 6 ≤ s.spc → s.schedVol = some nv) ∧
  ((s.wpc = 5 ∨ s.wpc = 6) → s.notified = true)

lemma CInv_init (v0 nv : ℕ) : CInv nv (initC v0) := by
  simp [CInv, initC]

lemma CInv_step {nv : ℕ} {s s' : CState} (hs : CStep nv s s') (hi : CInv nv s) :
    CInv nv s' := by
  obtain ⟨i1, i2, i3, i4, i5, i6⟩ := hi
  cases hs <;> refine ⟨?_, ?_, ?_, ?_, ?_, ?_⟩ <;> simp_all

lemma CInv_reach {v0 nv : ℕ} {s : CState} (h : CReach v0 nv s) : CInv nv s := by
  induction h with
  | refl => exact CInv_init v0 nv
  | tail _ hstep ih => exact CInv_step hstep ih

/-- The end state of one concrete interleaving: cell initially 10, the
watcher handles a sink-change event with queried value 20 while the
scheduler is waiting, the wait is ended by the signal, and the iteration
completes its snapshot read. -/
def cFinal : CState :=
  ⟨20, true, false, none, none, 8, 7, some 20, true⟩

/-- A full concrete interleaving reaching `cFinal`: the scheduler starts
waiting, the watcher publishes 20 and signals, the scheduler wakes by the
signal and reads the cell. -/
lemma reach_example : CReach 10 20 cFinal := by
  show Relation.ReflTransGen (CStep 20) (initC 10) cFinal
  refine .head (CStep.sLockPair _ rfl rfl) ?_
  refine .head (CStep.sStartWait _ rfl) ?_
  refine .head (CStep.wLockVol _ rfl rfl) ?_
  refine .head (CStep.wBranchNe _ rfl (by decide)) ?_
  refine .head (CStep.wWrite _ rfl) ?_
  refine .head (CStep.wLockPair _ rfl rfl) ?_
  refine .head (CStep.wSetFlag _ rfl) ?_
  refine .head (CStep.wNotify _ rfl) ?_
  refine .head (CStep.wUnlockPair _ rfl) ?_
  refine .head (CStep.wUnlockVol _ rfl) ?_
  refine .head (CStep.sWakeSignal _ rfl rfl rfl) ?_
  refine .head (CStep.sUnlockPair _ rfl) ?_
  refine .head (CStep.sLockVol _ rfl rfl) ?_
  refine .head (CStep.sRead _ rfl) ?_
  refine .head (CStep.sUnlockVol _ rfl) ?_
  exact Relation.ReflTransGen.refl

/-! ### Support lemmas -/

lemma hasPrefixL_append_self (p t : List Char) : hasPrefixL p (p ++ t) = true := by
  induction p with
  | nil => rfl
  | cons c cs ih => simp [hasPrefixL, ih]

lemma containsSub_nil_pat (s : List Char) : containsSub s [] = true := by
  cases s <;> simp [containsSub, hasPrefixL, List.isEmpty]

lemma containsSub_append (x pat y : List Char) :
    containsSub (x ++ pat ++ y) pat = true := by
  induction x with
  | nil =>
    cases pat with
    | nil => simpa using containsSub_nil_pat y
    | cons p ps =>
      have h := hasPrefixL_append_self (p :: ps) y
      simp only [List.cons_append] at h
      simp [containsSub, List.append_eq, h]
  | cons c cs ih =>
    simp only [List.cons_append, containsSub, List.append_eq]
    rw [ih]
    simp

lemma toList_append (s t : String) : (s ++ t).toList = s.toList ++ t.toList := by
  simp [String.toList]

/-- If a string is built as `a ++ pat ++ b` then `strContains` finds `pat`. -/
lemma strContains_append (a pat b : String) :
    strContains (a ++ pat ++ b) pat = true := by
  unfold strContains
  rw [toList_append, toList_append]
  exact containsSub_append a.toList pat.toList b.toList

/-- No snapshot line can coincide with the version line: a snapshot line
ends in `','`, the version line in `'\x7d'`. -/
lemma snapshot_line_ne_version (bs : List StatusBlock) :
    snapshot_line bs ≠ version_line := by
  intro h
  have hdata : (snapshot_line bs).toList = version_line.toList := by rw [h]
  rw [snapshot_line, toList_append] at hdata
  have h1 : ((encodeBlocks bs).toList ++ (",").toList).getLast? = some ',' :=
    List.getLast?_concat _
  rw [hdata] at h1
  simp [version_line, String.toList] at h1

/-- `watcher_step` does nothing when the queried value matches the cell. -/
lemma watcher_step_same (st : WatcherState) (l : String) :
    watcher_step st l (some st.vol) = (st, false) := by
  unfold watcher_step
  cases hc : strContains l sinkMarker <;> simp

/-- Folding the watcher over any lines with an unchanged query result leaves
the state alone and raises no wake signal. -/
lemma watcher_run_same (st : WatcherState) (ls : List String) :
    watcher_run st (ls.map (fun l => (l, some st.vol))) = (st, 0) := by
  induction ls with
  | nil => rfl
  | cons l ls ih =>
    simp only [List.map_cons, watcher_run, watcher_step_same st l, ih]
    simp

/-! #### `readable_bytes` support -/

lemma roundQ_le (q : ℚ) : (roundQ q : ℚ) ≤ q + 1 / 2 := Int.floor_le _

lemma lt_roundQ (q : ℚ) : q - 1 / 2 < (roundQ q : ℚ) := by
  have h := Int.sub_one_lt_floor (q + 1 / 2)
  unfold roundQ
  linarith

lemma roundQ_nonneg {q : ℚ} (h : 0 ≤ q) : 0 ≤ roundQ q := by
  unfold roundQ
  refine Int.le_floor.mpr ?_
  push_cast
  linarith

/-- Where `readableGo` stops: some unit index `k` within the list, with the
remaining value divided down `k` times. -/
lemma readableGo_parts (us : List String) (num : ℚ) (h0 : 0 ≤ num)
    (hlt : num < 1024 ^ us.length) (hne : us ≠ []) :
    ∃ k u, us[k]? = some u ∧
      readableGo us num = fmt2 (num / 1024 ^ k) ++ u := by
  induction us generalizing num with
  | nil => exact absurd rfl hne
  | cons u us ih =>
    by_cases hsmall : num < 1024
    · exact ⟨0, u, by simp, by simp [readableGo, hsmall]⟩
    · have hus : us ≠ [] := by
        rintro rfl
        simp only [List.length_cons, List.length_nil, pow_one] at hlt
        exact hsmall hlt
      have h0' : 0 ≤ num / 1024 := by positivity
      have hlt' : num / 1024 < 1024 ^ us.length := by
        rw [div_lt_iff₀ (by norm_num : (0:ℚ) < 1024)]
        calc num < 1024 ^ (u :: us).length := hlt
        _ = 1024 ^ us.length * 1024 := by rw [List.length_cons]; ring
      obtain ⟨k, u', hget, heq⟩ := ih (num / 1024) h0' hlt' hus
      refine ⟨k + 1, u', by simpa using hget, ?_⟩
      rw [readableGo, if_neg (by exact hsmall), heq]
      congr 2
      rw [div_div, pow_succ]
      ring_nf

/-- When the value stays at least 1024 through every unit, the loop falls
off the end and returns `"ERROR"`. -/
lemma readableGo_error (us : List String) (num : ℚ)
    (h : (1024 : ℚ) ^ us.length ≤ num) : readableGo us num = "ERROR" := by
  induction us generalizing num with
  | nil => rfl
  | cons u us ih =>
    have h1024 : (1024 : ℚ) ≤ num := by
      calc (1024 : ℚ) = 1024 ^ 1 := (pow_one _).symm
      _ ≤ 1024 ^ (u :: us).length := by
          apply pow_le_pow_right₀ (by norm_num)
          simp [Nat.succ_le_iff]
      _ ≤ num := h
    rw [readableGo, if_neg (by exact not_lt.mpr h1024)]
    apply ih
    rw [le_div_iff₀ (by norm_num : (0:ℚ) < 1024)]
    have hpow : (1024 : ℚ) ^ us.length * 1024 = 1024 ^ (u :: us).length := by
      rw [List.length_cons]; ring
    rw [hpow]
    exact h

/-- The rendered centi-value is within half a cent of the exact value. -/
lemma fmt2_bound (q : ℚ) (h0 : 0 ≤ q) :
    |(((roundQ (q * 100)).toNat : ℚ)) / 100 - q| ≤ 1 / 200 := by
  have hnn : 0 ≤ roundQ (q * 100) := roundQ_nonneg (by positivity)
  have hcast : (((roundQ (q * 100)).toNat : ℚ)) = ((roundQ (q * 100) : ℤ) : ℚ) := by
    norm_cast
    exact Int.toNat_of_nonneg hnn
  rw [hcast]
  have hle := roundQ_le (q * 100)
  have hlt := lt_roundQ (q * 100)
  rw [abs_le]
  constructor <;> [linarith; linarith]

/-- Both wire-format keys occur in every encoded block. -/
lemma encodeBlock_keys (b : StatusBlock) :
    strContains (encodeBlock b) fullTextKey = true ∧
    strContains (encodeBlock b) nameKey = true := by
  constructor
  · have h : encodeBlock b = "\x7b" ++ fullTextKey ++
        (":" ++ encodeString b.full_text ++ "," ++ nameKey ++ ":" ++
          encodeString b.name ++ "\x7d") := by
      simp [encodeBlock, String.append_assoc]
    rw [h]
    exact strContains_append _ _ _
  · have h : encodeBlock b = ("\x7b" ++ fullTextKey ++ ":" ++
        encodeString b.full_text ++ ",") ++ nameKey ++
        (":" ++ encodeString b.name ++ "\x7d") := by
      simp [encodeBlock, String.append_assoc]
    rw [h]
    exact strContains_append _ _ _

/-- `ccLoop` returns `Ok` exactly for the first line that both starts with
`Hostname:` and has a second whitespace token. -/
lemma ccLoop_find (ls : List String) :
    ccLoop ls =
      (match ls.find?
          (fun l => rustStartsWith l ("Hostname:") && ((splitWs l)[1]?).isSome) with
        | some l => Except.ok (upper2 (((splitWs l)[1]?).getD ""))
        | none => Except.error "Hostname Line not found") := by
  induction ls with
  | nil => rfl
  | cons l ls ih =>
    by_cases h1 : rustStartsWith l ("Hostname:") = true
    · cases h2 : (splitWs l)[1]? with
      | some hn =>
        rw [List.find?_cons_of_pos _ (by simp [h1, h2])]
        simp [ccLoop, h1, h2]
      | none =>
        rw [List.find?_cons_of_neg _ (by simp [h1, h2])]
        simp [ccLoop, h1, h2, ih]
    · rw [List.find?_cons_of_neg _ (by simp [h1])]
      simp [ccLoop, h1, ih]

/-- A step never resets the wake flag. -/
lemma notified_mono {nv : ℕ} {s s' : CState} (h : CStep nv s s')
    (hn : s.notified = true) : s'.notified = true := by
  cases h <;> simp_all

/-! ## The claims -/

/-- C1: for every sink-change event processed by the Watcher with newly
queried volume `v`: if `v` differs from the stored value the Watcher writes
`v` and raises WakeSignal; if `v` equals the stored value it neither
modifies the cell nor raises WakeSignal, and any number of identical
readings produces zero wake events. -/
theorem c1_watcher_change_coalescing :
    (∀ (st : WatcherState) (line : String) (v : ℕ),
      strContains line sinkMarker = true →
        (st.vol ≠ v → watcher_step st line (some v) = (⟨v, true⟩, true)) ∧
        (st.vol = v → watcher_step st line (some v) = (st, false))) ∧
    (∀ (st : WatcherState) (ls : List String),
      watcher_run st (ls.map (fun l => (l, some st.vol))) = (st, 0)) := by
  constructor
  · intro st line v hm
    refine ⟨fun hne => ?_, fun heq => ?_⟩
    · simp [watcher_step, hm, hne]
    · subst heq
      exact watcher_step_same st line
  · exact watcher_run_same

/-- Witness for C1 at a concrete event line and concrete volumes. -/
theorem c1_witness :
    watcher_step ⟨50, false⟩ ("Event 'change' on sink #0") (some 60) =
      (⟨60, true⟩, true) ∧
    watcher_step ⟨60, true⟩ ("Event 'change' on sink #0") (some 60) =
      (⟨60, true⟩, false) ∧
    watcher_run ⟨60, false⟩
      ((["Event 'change' on sink #0",
         "Event 'change' on sink #1"]).map (fun l => (l, some 60))) =
      (⟨60, false⟩, 0) :=
  ⟨(c1_watcher_change_coalescing.1 ⟨50, false⟩ ("Event 'change' on sink #0") 60
      (by decide)).1 (by decide),
   (c1_watcher_change_coalescing.1 ⟨60, true⟩ ("Event 'change' on sink #0") 60
      (by decide)).2 rfl,
   c1_watcher_change_coalescing.2 ⟨60, false⟩ _⟩

/-- C2: the Watcher's update of the cell and its raising of the signal form
one critical section from the Scheduler's perspective (the Watcher holds the
volume mutex across both): in every reachable state of the interleaved
semantics, if the flag is raised the cell already holds the new value, and a
Scheduler iteration woken by the signal can only have snapshot-read the new
value — never a stale one. -/
theorem c2_publish_then_signal_atomic (v0 nv : ℕ) (s : CState)
    (h : CReach v0 nv s) :
    (s.notified = true → s.vol = nv) ∧
    (s.wokenBySignal = true → 6 ≤ s.spc → s.schedVol = some nv) := by
  have hi := CInv_reach h
  exact ⟨fun hn => (hi.2.1 hn).1, fun hw hs => hi.2.2.2.2.1 hw hs⟩

/-- Witness for C2 at the end of the concrete interleaving `reach_example`:
the signal-woken Scheduler read exactly the published value 20. -/
theorem c2_witness : cFinal.schedVol = some 20 ∧ cFinal.vol = 20 :=
  ⟨(c2_publish_then_signal_atomic 10 20 cFinal reach_example).2 rfl
      (by norm_num [cFinal]),
   (c2_publish_then_signal_atomic 10 20 cFinal reach_example).1 rfl⟩

/-- C3 counterexample: a complete signal-caused Scheduler iteration
(`spc = 7`, `wokenBySignal = true`) is reachable with the dirty flag still
`true` — the code never resets it, contradicting the claim that the flag is
cleared before returning to WAITING. -/
theorem c3_counterexample :
    CReach 10 20 cFinal ∧ cFinal.wokenBySignal = true ∧ cFinal.spc = 7 ∧
      ¬(cFinal.notified = false) :=
  ⟨reach_example, rfl, rfl, by decide⟩

/-- C3 amended: the Scheduler never clears WakeSignal — in every reachable
state whose wakeup was signal-caused the dirty flag is (still) `true`, and
no step of either thread can reset it (the `wait_timeout` guard is
discarded unwritten at src/main.rs line 423). -/
theorem c3_wake_flag_never_cleared (v0 nv : ℕ) (s : CState)
    (h : CReach v0 nv s) (hw : s.wokenBySignal = true) :
    s.notified = true ∧ ∀ s', CStep nv s s' → s'.notified = true := by
  have h1 := ((CInv_reach h).2.2.2.1 hw).2
  exact ⟨h1, fun s' hs => notified_mono hs h1⟩

/-- Witness for the amended C3 at the end of the concrete interleaving. -/
theorem c3_witness : cFinal.notified = true :=
  (c3_wake_flag_never_cleared 10 20 cFinal reach_example rfl).1

/-- C4: with volume 42, a failing brightness sensor and no network
reporting, the snapshot is exactly a volume block (whose `full_text`
contains `"42"`) and a clock block — no brightness or network block — and
building is total, so it completes without error. -/
theorem c4_failing_sensor_only_omits_its_block (time : String) :
    print_status_blocks 42 none time = [volumeBlock 42, clockBlock time] ∧
    strContains (volumeBlock 42).full_text ("42") = true ∧
    (volumeBlock 42).name = "volume" ∧
    (clockBlock time).name = "clock" ∧
    (∀ b ∈ print_status_blocks 42 none time,
      b.name ≠ "brightness" ∧ b.name ≠ "net") := by
  refine ⟨rfl, ?_, rfl, rfl, ?_⟩
  · have h : (volumeBlock 42).full_text = (volIcon ++ "  ") ++ "42" ++ "" := by
      decide
    rw [h]
    exact strContains_append _ _ _
  · intro b hb
    simp only [print_status_blocks, List.append_nil, List.cons_append,
      List.nil_append, List.mem_cons, List.not_mem_nil, or_false] at hb
    rcases hb with rfl | rfl
    · exact ⟨by decide, by decide⟩
    · exact ⟨by simp [clockBlock], by simp [clockBlock]⟩

/-- Witness for C4 at a concrete time string and concrete block. -/
theorem c4_witness :
    print_status_blocks 42 none ("12:34:56") =
      [volumeBlock 42, clockBlock ("12:34:56")] ∧
    (volumeBlock 42).name ≠ "brightness" :=
  ⟨(c4_failing_sensor_only_omits_its_block ("12:34:56")).1,
   ((c4_failing_sensor_only_omits_its_block ("12:34:56")).2.2.2.2
      (volumeBlock 42) (by simp [print_status_blocks])).1⟩

/-- C5 counterexample: the first output line is `{ "version": 1 }` (with
spaces inside the braces, src/main.rs line 369), not the exact string
`{"version": 1}` the claim states. -/
theorem c5_counterexample :
    version_line ≠ "\x7b\"version\": 1\x7d" ∧
    version_line = "\x7b \"version\": 1 \x7d" := by
  constructor
  · decide
  · rfl

/-- C5 amended: the stream begins with exactly one line `{ "version": 1 }`
(the version object serialized with a space after `{` and before `}`),
followed by a line `[`, and every subsequent emitted snapshot is the JSON
array of its StatusBlock objects — each object carrying the `full_text` and
`name` keys — followed by a literal trailing comma on its line. -/
theorem c5_output_protocol (snaps : List (List StatusBlock)) :
    (output_lines snaps).head? = some version_line ∧
    (output_lines snaps).count version_line = 1 ∧
    (output_lines snaps)[1]? = some ("[") ∧
    (output_lines snaps).drop 2 = snaps.map snapshot_line ∧
    (∀ bs, snapshot_line bs =
      ("[" ++ String.intercalate "," (bs.map encodeBlock) ++ "]") ++ ",") ∧
    (∀ b : StatusBlock,
      strContains (encodeBlock b) fullTextKey = true ∧
      strContains (encodeBlock b) nameKey = true) := by
  refine ⟨rfl, ?_, by simp [output_lines], rfl, fun bs => rfl, encodeBlock_keys⟩
  have h0 : version_line ∉ snaps.map snapshot_line := by
    intro hmem
    obtain ⟨bs, _, heq⟩ := List.mem_map.mp hmem
    exact snapshot_line_ne_version bs heq
  have h1 : (snaps.map snapshot_line).count version_line = 0 :=
    List.count_eq_zero.mpr h0
  simp only [output_lines, List.count_cons, h1]
  decide

/-- Witness for C5 at a concrete snapshot list. -/
theorem c5_witness :
    (output_lines [[volumeBlock 42]]).head? = some version_line ∧
    (output_lines [[volumeBlock 42]]).count version_line = 1 :=
  ⟨(c5_output_protocol [[volumeBlock 42]]).1,
   (c5_output_protocol [[volumeBlock 42]]).2.1⟩

/-- C6: `readable_bytes` steps through B/KB/MB/GB/TB/PB by factors of 1024;
`readable_bytes 0 = "0.00B"`, `readable_bytes 1536 = "1.50KB"`; for every
byte count below `1024^6` (1024 PB) the displayed numeric prefix (the
centi-value `c`, shown as `c / 100` with two decimals) times the implied
unit's byte count is within one unit step of the input; and every value at
least `1024^6` yields the defined error result `"ERROR"`, not a
wraparound. -/
theorem c6_readable_bytes_spec :
    readable_bytes 0 = "0.00B" ∧
    readable_bytes 1536 = "1.50KB" ∧
    (∀ n : ℕ, (n : ℚ) < 1024 ^ 6 →
      ∃ k c u, units[k]? = some u ∧
        readable_bytes n = centiRender c ++ u ∧
        |(c : ℚ) / 100 * 1024 ^ k - n| ≤ 1024 ^ k) ∧
    (∀ x : ℚ, 1024 ^ 6 ≤ x → readable_bytes x = "ERROR") := by
  refine ⟨?_, ?_, ?_, ?_⟩
  · have h0 : ((0 : ℚ) < 1024) := by norm_num
    have h : roundQ (0 * 100) = 0 := by unfold roundQ; norm_num
    rw [readable_bytes, units, readableGo, if_pos h0, fmt2, h]
    decide
  · have h0 : ¬((1536 : ℚ) < 1024) := by norm_num
    have h1 : ((1536 : ℚ) / 1024) < 1024 := by norm_num
    have h2 : roundQ ((1536 : ℚ) / 1024 * 100) = 150 := by unfold roundQ; norm_num
    rw [readable_bytes, units, readableGo, if_neg h0, readableGo, if_pos h1,
      fmt2, h2]
    decide
  · intro n hn
    have h6 : (n : ℚ) < 1024 ^ units.length := by
      have hu : units.length = 6 := rfl
      rw [hu]
      exact hn
    obtain ⟨k, u, hget, heq⟩ :=
      readableGo_parts units n (by positivity) h6 (by simp [units])
    refine ⟨k, (roundQ ((n : ℚ) / 1024 ^ k * 100)).toNat, u, hget, ?_, ?_⟩
    · rw [readable_bytes, heq, fmt2]
    · have hpow : (0 : ℚ) < 1024 ^ k := by positivity
      have hb := fmt2_bound ((n : ℚ) / 1024 ^ k) (by positivity)
      have hqe : (n : ℚ) / 1024 ^ k * 1024 ^ k = n :=
        div_mul_cancel₀ _ (ne_of_gt hpow)
      have habs :
          |((roundQ ((n : ℚ) / 1024 ^ k * 100)).toNat : ℚ) / 100 * 1024 ^ k
              - n| =
            |((roundQ ((n : ℚ) / 1024 ^ k * 100)).toNat : ℚ) / 100
              - (n : ℚ) / 1024 ^ k| * 1024 ^ k := by
        rw [← hqe, ← sub_mul, abs_mul, abs_of_pos hpow]
        rw [hqe]
      rw [habs]
      have h2 : |((roundQ ((n : ℚ) / 1024 ^ k * 100)).toNat : ℚ) / 100
          - (n : ℚ) / 1024 ^ k| * 1024 ^ k ≤ (1 / 200) * 1024 ^ k :=
        mul_le_mul_of_nonneg_right hb (le_of_lt hpow)
      linarith
  · intro x hx
    apply readableGo_error
    have hu : units.length = 6 := rfl
    rw [hu]
    exact hx

/-- Witness for C6 at the concrete inputs 1536 and `1024^6`. -/
theorem c6_witness :
    (∃ k c u, units[k]? = some u ∧
      readable_bytes ((1536 : ℕ) : ℚ) = centiRender c ++ u ∧
      |(c : ℚ) / 100 * 1024 ^ k - ((1536 : ℕ) : ℚ)| ≤ 1024 ^ k) ∧
    readable_bytes ((1024 : ℚ) ^ 6) = "ERROR" :=
  ⟨c6_readable_bytes_spec.2.2.1 1536 (by norm_num),
   c6_readable_bytes_spec.2.2.2 (1024 ^ 6) le_rfl⟩

/-- C7: `format_volume 0` uses the muted icon; every input in `1..=100`
uses the non-muted icon (distinct from the muted one); and for every input
the formatted string is an icon-and-spaces prefix — containing no digits —
followed by exactly the decimal rendering of the input. -/
theorem c7_format_volume_spec :
    format_volume 0 = mutedIcon ++ "  " ++ "0" ∧
    (∀ v : ℕ, 1 ≤ v → v ≤ 100 →
      format_volume v = volIcon ++ "  " ++ toString v) ∧
    mutedIcon ≠ volIcon ∧
    (∀ v : ℕ, ∃ icon, format_volume v = icon ++ "  " ++ toString v ∧
      icon.toList.all (fun c => !c.isDigit) = true ∧
      (if v = 0 then icon = mutedIcon else icon = volIcon)) := by
  refine ⟨rfl, ?_, by decide, ?_⟩
  · intro v h1 _
    match v, h1 with
    | v + 1, _ => rfl
  · intro v
    match v with
    | 0 => exact ⟨mutedIcon, rfl, by decide, by simp⟩
    | v + 1 => exact ⟨volIcon, rfl, by decide, by simp⟩

/-- Witness for C7 at the concrete input 55. -/
theorem c7_witness : format_volume 55 = volIcon ++ "  " ++ toString 55 :=
  c7_format_volume_spec.2.1 55 (by norm_num) (by norm_num)

/-- A real `pactl get-sink-volume` output shape at 150% volume (PulseAudio
volumes above 100% are routine). -/
def pactlOut150 : String :=
  "Volume: front-left: 98304 /  150% / 10.57 dB,   front-right: 98304 /  150% / 10.57 dB"

/-- C8 counterexample: `get_volume` parses 150 from a 150%-volume `pactl`
output — no clamping to 0–100 exists anywhere — and the Watcher stores that
150 into SharedVolumeCell, so the cell is not always in 0–100. -/
theorem c8_counterexample :
    get_volume_parse pactlOut150 = some 150 ∧ ¬(150 ≤ 100) ∧
    (watcher_step ⟨42, false⟩ ("Event 'change' on sink #0")
        (get_volume_parse pactlOut150)).1 = ⟨150, true⟩ := by
  exact ⟨by decide, by decide, by decide⟩

/-- C8 amended: the value held in SharedVolumeCell is always a nonnegative
integer below `2^32` (a `u32` parsed by `get_volume`, or the `unwrap_or(0)`
initialization fallback), and the Watcher only ever stores values the query
returned; the 0–100 upper bound is not enforced. -/
theorem c8_cell_value_unclamped :
    (∀ out v, get_volume_parse out = some v → v < 2 ^ 32) ∧
    (∀ out, (get_volume_parse out).getD 0 < 2 ^ 32) ∧
    (∀ (st : WatcherState) (line : String) (q : Option ℕ),
      (watcher_step st line q).1.vol = st.vol ∨
        q = some ((watcher_step st line q).1.vol)) := by
  have h1 : ∀ out v, get_volume_parse out = some v → v < 2 ^ 32 := by
    intro out v hv
    unfold get_volume_parse at hv
    cases hf : findVolMatch out.toList with
    | none => rw [hf] at hv; simp at hv
    | some ds =>
      rw [hf] at hv
      simp only [Option.some_bind] at hv
      split_ifs at hv with hlt
      injection hv with hv
      rw [← hv]
      exact hlt
  refine ⟨h1, ?_, ?_⟩
  · intro out
    cases hp : get_volume_parse out with
    | none => simp
    | some v => simpa using h1 out v hp
  · intro st line q
    unfold watcher_step
    cases hm : strContains line sinkMarker
    · simp
    · cases q with
      | none => simp
      | some nv =>
        by_cases he : st.vol ≠ nv
        · simp [he]
        · simp [he]

/-- Witness for the amended C8 at the concrete 150% output. -/
theorem c8_witness :
    (150 : ℕ) < 2 ^ 32 ∧ (get_volume_parse pactlOut150).getD 0 < 2 ^ 32 :=
  ⟨c8_cell_value_unclamped.1 pactlOut150 150 (by decide),
   c8_cell_value_unclamped.2.1 pactlOut150⟩

/-- C9 counterexample: the output `"Hostname:"` contains a line beginning
with `Hostname:`, yet `get_country_code` returns the failure, not the
claimed first-two-characters result — a matching line without a second
whitespace token is skipped, so failure does not only occur "when no such
line exists". -/
theorem c9_counterexample :
    (∃ l ∈ rustLines ("Hostname:"), rustStartsWith l ("Hostname:") = true) ∧
    get_country_code ("Hostname:") = Except.error "Hostname Line not found" ∧
    (∀ s, get_country_code ("Hostname:") ≠ Except.ok s) := by
  refine ⟨⟨"Hostname:", by decide, by decide⟩, rfl, ?_⟩
  intro s h
  rw [show get_country_code ("Hostname:") =
    Except.error "Hostname Line not found" from rfl] at h
  exact Except.noConfusion h

/-- C9 amended: `get_country_code` returns `Ok` of the uppercased first two
characters of the second whitespace-delimited token of the first
`Hostname:`-prefixed line *that has a second token*; if no such line exists
(even when `Hostname:`-prefixed lines without a second token do) it returns
the failure — and it is total, never a crash. -/
theorem c9_country_code_spec (out : String) :
    get_country_code out =
      (match (rustLines out).find?
          (fun l => rustStartsWith l ("Hostname:") && ((splitWs l)[1]?).isSome)
        with
        | some l => Except.ok (upper2 (((splitWs l)[1]?).getD ""))
        | none => Except.error "Hostname Line not found") ∧
    get_country_code ("Hostname: us1234.nordvpn.com\nCountry: United States") =
      Except.ok "US" :=
  ⟨ccLoop_find (rustLines out), rfl⟩

/-- C10: `get_ip_address` is not total over its subprocess output: the `ip`
output `"inet \n."` (whose first line `"inet "` contains the `inet ` marker,
is not loopback, and has fewer than two whitespace tokens) makes the
`nth(1).unwrap()` panic — modelled as `none` — while well-formed outputs
return normally. -/
theorem c10_ip_address_partial :
    get_ip_address ("inet \n.") = none ∧
    get_ip_address ("foo\n    inet 10.0.0.2/24 scope global wlp2s0") =
      some ["wlp2s0 10.0.0.2/24"] := by
  exact ⟨by decide, by decide⟩

end Rocketbar
